import Mathlib

/-
Verification of the authentication / CSRF / sanitization core of the
component-api repository.  JavaScript strings are modelled as `List Char`;
stateful code is modelled by explicit state passing.  Platform primitives
(HMAC-SHA256, base64, JSON serialization) that live outside the repository
are abstracted as a `CryptoModel` record of functions; the theorems carry
the round-trip facts those primitives provide as hypotheses, and witnesses
instantiate them with concrete executable stand-ins.
-/

/-! ### Generic string helpers (JS string operations over List Char) -/

/-- JS character class `\s` (ASCII portion, which is all the code relies on). -/
def isSpaceC (c : Char) : Bool :=
  c = ' ' ∨ c = '\t' ∨ c = '\n' ∨ c = '\r' ∨ c = '\x0b' ∨ c = '\x0c'

/-- JS character class `\w` = [A-Za-z0-9_]. -/
def isWordC (c : Char) : Bool := c.isAlpha ∨ c.isDigit ∨ c = '_'

/-- JS `String.prototype.trim` (ASCII whitespace). -/
def trimList (s : List Char) : List Char :=
  ((s.dropWhile isSpaceC).reverse.dropWhile isSpaceC).reverse

/-- JS `String.prototype.split(sep)` for a one-character separator:
`"".split(c) = [""]`, separators delimit possibly-empty fields. -/
def splitOnChar (sep : Char) : List Char → List (List Char)
  | [] => [[]]
  | c :: rest =>
    if c = sep then [] :: splitOnChar sep rest
    else
      match splitOnChar sep rest with
      | [] => [[c]]
      | s :: ss => (c :: s) :: ss

/-- JS `String.prototype.toLowerCase` (ASCII). -/
def toLowerList (s : List Char) : List Char := s.map Char.toLower

/-- JS `String.prototype.toUpperCase` (ASCII). -/
def toUpperList (s : List Char) : List Char := s.map Char.toUpper

/-- JS `String.prototype.startsWith`. -/
def listIsPrefixOf : List Char → List Char → Bool
  | [], _ => true
  | _ :: _, [] => false
  | a :: as', b :: bs => a = b && listIsPrefixOf as' bs

/-- JS `String.prototype.includes` (case-sensitive substring test). -/
def containsSub (s sub : List Char) : Bool :=
  match s with
  | [] => listIsPrefixOf sub []
  | _ :: rest => listIsPrefixOf sub s || containsSub rest sub

/-- Case-insensitive substring test; models `/lit/gi.test(s)` for a literal
pattern `lit`. -/
def containsSubCI (s sub : List Char) : Bool :=
  containsSub (toLowerList s) (toLowerList sub)

/-- JS truthiness of a nullable string: `null`/`undefined` and `""` are falsy. -/
def truthy : Option (List Char) → Bool
  | none => false
  | some s => s ≠ []

/-- JS `parseInt(s, 10)` restricted to an optional run of leading digits after
whitespace (the repository only feeds it digit strings); NaN is `none`. -/
def parseIntJS (s : List Char) : Option Nat :=
  let t := s.dropWhile isSpaceC
  let ds := t.takeWhile Char.isDigit
  if ds = [] then none
  else some (ds.foldl (fun a c => a * 10 + (c.toNat - '0'.toNat)) 0)

/-! ### Token Codec (src JWTManager): platform primitive abstraction -/

/-- The JWT payload `{userId, type, iat, exp}` as built by `createJWT` and
decoded by `verifyToken`.  `exp : Option Nat` models the JS number field:
`none` stands for an absent/NaN/null expiry (which is falsy in the
`payload.exp && payload.exp < now` check), `some e` a concrete number. -/
structure JWTPayload where
  userId : List Char
  type : List Char
  iat : Nat
  exp : Option Nat
deriving DecidableEq

/-- Abstraction of the platform primitives used by JWTManager:
JSON.stringify/JSON.parse of the payload, base64url encode/decode (btoa/atob
with the url-safe character replacements), and HMAC-SHA256 (crypto.subtle
sign; `verify` is modelled as equality with the recomputed signature). -/
structure CryptoModel where
  stringifyPayload : JWTPayload → List Char
  parsePayload : List Char → Option JWTPayload
  b64 : List Char → List Char
  unb64 : List Char → Option (List Char)
  hmac : List Char → List Char → List Char

/-- `{accessToken, refreshToken, expiresIn}`; `expiresIn` is the parsed access
expiry (`none` models the NaN that JS propagates for a bad duration string). -/
structure AuthTokens where
  accessToken : List Char
  refreshToken : List Char
  expiresIn : Option Nat
deriving DecidableEq

/-- `JWTManager.parseExpiry`: unit suffix s/m/h/d applied to the parsed number;
an unrecognized suffix (including the empty string) yields the 1-hour default.
`none` models a NaN value under a recognized suffix. -/
def parseExpiry (expiry : List Char) : Option Nat :=
  match expiry.getLast? with
  | none => some (60 * 60)
  | some u =>
    let value := parseIntJS expiry.dropLast
    if u = 's' then value
    else if u = 'm' then value.map (· * 60)
    else if u = 'h' then value.map (· * 60 * 60)
    else if u = 'd' then value.map (· * 24 * 60 * 60)
    else some (60 * 60)

/-- The constant JSON header `{"alg":"HS256","typ":"JWT"}`. -/
def headerJson : List Char :=
  "\x7b\"alg\":\"HS256\",\"typ\":\"JWT\"\x7d".toList

/-- `JWTManager.createJWT`: header.payload.signature, each part produced by the
platform primitives, joined with dots. -/
def createJWT (cm : CryptoModel) (secret userId ty : List Char)
    (expirySeconds : Option Nat) (now : Nat) : List Char :=
  let p : JWTPayload := ⟨userId, ty, now, expirySeconds.map (now + ·)⟩
  let encodedHeader := cm.b64 headerJson
  let encodedPayload := cm.b64 (cm.stringifyPayload p)
  let message := encodedHeader ++ '.' :: encodedPayload
  message ++ '.' :: cm.hmac secret message

/-- `JWTManager.generateTokens` at time `now` with the manager's configured
expiry strings. -/
def generateTokens (cm : CryptoModel) (secret aExp rExp userId : List Char)
    (now : Nat) : AuthTokens :=
  let accessExpiry := parseExpiry aExp
  ⟨createJWT cm secret userId ("access".toList) accessExpiry now,
   createJWT cm secret userId ("refresh".toList) (parseExpiry rExp) now,
   accessExpiry⟩

/-- The failure modes of `verifyToken`: 'Invalid JWT format', 'Invalid JWT
signature', a decoding exception escaping from atob/JSON.parse, and
'JWT expired'. -/
inductive VerifyError where
  | malformed
  | badSignature
  | decodeFailed
  | expired
deriving DecidableEq

/-- `JWTManager.verifyToken` at time `now`.  Mirrors the source order: split on
'.', check the part count, verify the HMAC over header.payload, decode the
payload, then the `payload.exp && payload.exp < now` expiry check (note the
JS truthiness: an absent or zero `exp` skips the check). -/
def verifyToken (cm : CryptoModel) (secret token : List Char) (now : Nat) :
    Except VerifyError JWTPayload :=
  match splitOnChar '.' token with
  | [encodedHeader, encodedPayload, encodedSignature] =>
    let message := encodedHeader ++ '.' :: encodedPayload
    if cm.hmac secret message ≠ encodedSignature then .error .badSignature
    else
      match cm.unb64 encodedPayload with
      | none => .error .decodeFailed
      | some payloadJson =>
        match cm.parsePayload payloadJson with
        | none => .error .decodeFailed
        | some payload =>
          match payload.exp with
          | some e => if e ≠ 0 ∧ e < now then .error .expired else .ok payload
          | none => .ok payload
  | _ => .error .malformed

/-- Failure modes of `refreshTokens`: a propagated verification failure, or
'Invalid refresh token' when the payload kind is not `refresh`. -/
inductive RefreshError where
  | verify (e : VerifyError)
  | wrongKind
deriving DecidableEq

/-- `JWTManager.refreshTokens`: verify, require kind `refresh`, then issue a
fresh pair for the same `userId`. -/
def refreshTokens (cm : CryptoModel) (secret aExp rExp token : List Char)
    (now : Nat) : Except RefreshError AuthTokens :=
  match verifyToken cm secret token now with
  | .error e => .error (.verify e)
  | .ok payload =>
    if payload.type ≠ "refresh".toList then .error .wrongKind
    else .ok (generateTokens cm secret aExp rExp payload.userId now)

/-! ### Concrete executable crypto stand-in used by witnesses -/

/-- Serialization stand-in for JSON.stringify of the payload (pipe-separated;
injective on payloads whose userId and type avoid the pipe character). -/
def encPayloadT (p : JWTPayload) : List Char :=
  p.userId ++ '|' :: p.type ++ '|' :: (Nat.toDigits 10 p.iat) ++ '|' ::
    (match p.exp with
     | some e => Nat.toDigits 10 e
     | none => "null".toList)

/-- Parser matching `encPayloadT`. -/
def decPayloadT (s : List Char) : Option JWTPayload :=
  match splitOnChar '|' s with
  | [u, t, i, e] =>
    match parseIntJS i with
    | none => none
    | some iat =>
      if e = "null".toList then some ⟨u, t, iat, none⟩
      else
        match parseIntJS e with
        | none => none
        | some ev => some ⟨u, t, iat, some ev⟩
  | _ => none

/-- HMAC stand-in: a keyed fold rendered in digits, so the output never
contains a dot. -/
def hmacT (secret message : List Char) : List Char :=
  'h' :: Nat.toDigits 10
    ((secret ++ message).foldl (fun a c => a * 31 + c.toNat + 1) 7)

/-- Concrete `CryptoModel` for witnesses: identity base64 and the stand-ins
above. -/
def cmTest : CryptoModel :=
  ⟨encPayloadT, decPayloadT, id, some, hmacT⟩

/-! ### splitOnChar lemmas used to take tokens apart -/

theorem splitOnChar_no_sep (sep : Char) (a : List Char) (h : sep ∉ a) :
    splitOnChar sep a = [a] := by
  induction a with
  | nil => rfl
  | cons c rest ih =>
    have hc : c ≠ sep := by
      intro hEq; exact h (hEq ▸ List.mem_cons_self c rest)
    have hrest : sep ∉ rest := fun hm => h (List.mem_cons_of_mem _ hm)
    simp [splitOnChar, hc, ih hrest]

theorem splitOnChar_append (sep : Char) (a rest : List Char) (h : sep ∉ a) :
    splitOnChar sep (a ++ sep :: rest) = a :: splitOnChar sep rest := by
  induction a with
  | nil => simp [splitOnChar]
  | cons c a' ih =>
    have hc : c ≠ sep := by
      intro hEq; exact h (hEq ▸ List.mem_cons_self c a')
    have ha' : sep ∉ a' := fun hm => h (List.mem_cons_of_mem _ hm)
    have := ih ha'
    simp only [List.cons_append, splitOnChar, if_neg hc, List.append_eq, this]

/-- A three-part dotted string splits back into its three parts. -/
theorem splitOnChar_three (a b c : List Char)
    (ha : '.' ∉ a) (hb : '.' ∉ b) (hc : '.' ∉ c) :
    splitOnChar '.' (a ++ '.' :: (b ++ '.' :: c)) = [a, b, c] := by
  rw [splitOnChar_append '.' a _ ha, splitOnChar_append '.' b _ hb,
    splitOnChar_no_sep '.' c hc]

/-! ### Verification of a freshly issued token (shared by C1 and C3) -/

/-- Verifying a token built by `createJWT` at the same time succeeds with the
embedded payload, given the platform round-trip facts for that payload. -/
theorem verify_createJWT (cm : CryptoModel) (secret userId ty : List Char)
    (expiry : Option Nat) (now : Nat) (p : JWTPayload)
    (hp : p = ⟨userId, ty, now, expiry.map (now + ·)⟩)
    (hndH : '.' ∉ cm.b64 headerJson)
    (hndP : '.' ∉ cm.b64 (cm.stringifyPayload p))
    (hndS : '.' ∉ cm.hmac secret
      (cm.b64 headerJson ++ '.' :: cm.b64 (cm.stringifyPayload p)))
    (hrt : cm.unb64 (cm.b64 (cm.stringifyPayload p))
      = some (cm.stringifyPayload p))
    (hparse : cm.parsePayload (cm.stringifyPayload p) = some p) :
    verifyToken cm secret (createJWT cm secret userId ty expiry now) now
      = .ok p := by
  have htok : createJWT cm secret userId ty expiry now
      = cm.b64 headerJson ++ '.' ::
          (cm.b64 (cm.stringifyPayload p) ++ '.' ::
            cm.hmac secret
              (cm.b64 headerJson ++ '.' :: cm.b64 (cm.stringifyPayload p))) := by
    simp [createJWT, hp]
  rw [verifyToken, htok, splitOnChar_three _ _ _ hndH hndP hndS]
  simp only [ne_eq, not_true_eq_false, if_false, ite_not, if_pos rfl, hrt, hparse]
  subst hp
  cases hexp : expiry with
  | none => simp
  | some x =>
    have hlt : ¬ (now + x ≠ 0 ∧ now + x < now) := by omega
    simp [hlt]

/-- C1: for every subjectId, verifying the access token of the pair produced
by issuing credentials for that subjectId succeeds and returns a payload with
the same subjectId and kind `access` (round trip of `generateTokens` followed
by `verifyToken`, at the issuing time, under the platform round-trip facts). -/
theorem C1_issue_verify_roundtrip (cm : CryptoModel)
    (secret aExp rExp userId : List Char) (now : Nat) (pA : JWTPayload)
    (hpA : pA = ⟨userId, "access".toList, now, (parseExpiry aExp).map (now + ·)⟩)
    (hndH : '.' ∉ cm.b64 headerJson)
    (hndP : '.' ∉ cm.b64 (cm.stringifyPayload pA))
    (hndS : '.' ∉ cm.hmac secret
      (cm.b64 headerJson ++ '.' :: cm.b64 (cm.stringifyPayload pA)))
    (hrt : cm.unb64 (cm.b64 (cm.stringifyPayload pA))
      = some (cm.stringifyPayload pA))
    (hparse : cm.parsePayload (cm.stringifyPayload pA) = some pA) :
    verifyToken cm secret
        (generateTokens cm secret aExp rExp userId now).accessToken now
      = .ok pA
    ∧ pA.userId = userId ∧ pA.type = "access".toList := by
  refine ⟨?_, by rw [hpA], by rw [hpA]⟩
  have : (generateTokens cm secret aExp rExp userId now).accessToken
      = createJWT cm secret userId ("access".toList) (parseExpiry aExp) now := rfl
  rw [this]
  exact verify_createJWT cm secret userId _ _ now pA hpA hndH hndP hndS hrt hparse

/-- Witness for C1 at a concrete crypto stand-in, secret, subject and time. -/
theorem C1_issue_verify_roundtrip_witness :
    verifyToken cmTest ("k".toList)
        (generateTokens cmTest ("k".toList) ("1h".toList) ("30d".toList)
          ("u".toList) 7).accessToken 7
      = .ok ⟨"u".toList, "access".toList, 7, some 3607⟩ := by
  have h := C1_issue_verify_roundtrip cmTest ("k".toList) ("1h".toList)
    ("30d".toList) ("u".toList) 7 ⟨"u".toList, "access".toList, 7, some 3607⟩
    (by decide) (by decide) (by decide) (by decide) (by decide) (by decide)
  exact h.1

/-! ### C2: the error taxonomy of verifyToken -/

/-- C2 (amended): for every token, `verifyToken` fails malformed exactly when
the dot-split does not have 3 parts; given 3 parts it fails badSignature
exactly when the recomputed HMAC differs from the third part; and when the
signature matches and the payload part decodes, it fails expired exactly when
the embedded `exp` is a nonzero number below `now`, succeeding with the
decoded payload otherwise.  (The claim as frozen omits the nonzero-`exp`
qualification; see the counterexample.) -/
theorem C2_verify_error_order (cm : CryptoModel) (secret token : List Char)
    (now : Nat) :
    (verifyToken cm secret token now = .error .malformed
      ↔ (splitOnChar '.' token).length ≠ 3) ∧
    (∀ eh ep es, splitOnChar '.' token = [eh, ep, es] →
      (verifyToken cm secret token now = .error .badSignature
        ↔ cm.hmac secret (eh ++ '.' :: ep) ≠ es) ∧
      (∀ p, cm.hmac secret (eh ++ '.' :: ep) = es →
        (cm.unb64 ep).bind cm.parsePayload = some p →
        ((verifyToken cm secret token now = .error .expired
           ↔ ∃ e, p.exp = some e ∧ e ≠ 0 ∧ e < now) ∧
         (verifyToken cm secret token now = .ok p
           ↔ ∀ e, p.exp = some e → e = 0 ∨ now ≤ e)))) := by
  rcases hsp : splitOnChar '.' token with _ | ⟨a, _ | ⟨b, _ | ⟨c, _ | ⟨d, tl⟩⟩⟩⟩
  case nil =>
    refine ⟨by simp [verifyToken, hsp], ?_⟩
    intro eh ep es heq; simp at heq
  case cons.nil =>
    refine ⟨by simp [verifyToken, hsp], ?_⟩
    intro eh ep es heq; simp at heq
  case cons.cons.nil =>
    refine ⟨by simp [verifyToken, hsp], ?_⟩
    intro eh ep es heq; simp at heq
  case cons.cons.cons.cons =>
    refine ⟨by simp [verifyToken, hsp], ?_⟩
    intro eh ep es heq; simp at heq
  case cons.cons.cons.nil =>
    by_cases hsig : cm.hmac secret (a ++ '.' :: b) = c
    · rcases hdec : (cm.unb64 b).bind cm.parsePayload with _ | p
      · -- payload does not decode: the result is decodeFailed
        have hv : verifyToken cm secret token now = .error .decodeFailed := by
          rcases hub : cm.unb64 b with _ | pj
          · simp [verifyToken, hsp, hsig, hub]
          · rw [hub] at hdec; simp at hdec
            simp [verifyToken, hsp, hsig, hub, hdec]
        refine ⟨by simp [hv, hsp], ?_⟩
        rintro eh ep es heq
        obtain ⟨rfl, rfl, rfl⟩ : eh = a ∧ ep = b ∧ es = c := by
          simpa using heq.symm
        refine ⟨by simp [hv, hsig], ?_⟩
        intro p _ hdec'
        rw [hdec] at hdec'; simp at hdec'
      · -- payload decodes to p
        obtain ⟨pj, hub, hpp⟩ : ∃ pj, cm.unb64 b = some pj
            ∧ cm.parsePayload pj = some p := by
          rcases hub : cm.unb64 b with _ | pj
          · rw [hub] at hdec; simp at hdec
          · rw [hub] at hdec; simp at hdec; exact ⟨pj, rfl, hdec⟩
        rcases hexp : p.exp with _ | e
        · have hv : verifyToken cm secret token now = .ok p := by
            simp [verifyToken, hsp, hsig, hub, hpp, hexp]
          refine ⟨by simp [hv, hsp], ?_⟩
          rintro eh ep es heq
          obtain ⟨rfl, rfl, rfl⟩ : eh = a ∧ ep = b ∧ es = c := by
            simpa using heq.symm
          refine ⟨by simp [hv, hsig], ?_⟩
          intro q _ hdec'
          rw [hdec] at hdec'
          obtain rfl : p = q := by simpa using hdec'
          refine ⟨by simp [hv, hexp], by simp [hv, hexp]⟩
        · by_cases hlt : e ≠ 0 ∧ e < now
          · have hv : verifyToken cm secret token now = .error .expired := by
              simp [verifyToken, hsp, hsig, hub, hpp, hexp, hlt]
            refine ⟨by simp [hv, hsp], ?_⟩
            rintro eh ep es heq
            obtain ⟨rfl, rfl, rfl⟩ : eh = a ∧ ep = b ∧ es = c := by
              simpa using heq.symm
            refine ⟨by simp [hv, hsig], ?_⟩
            intro q _ hdec'
            rw [hdec] at hdec'
            obtain rfl : p = q := by simpa using hdec'
            constructor
            · exact ⟨by simp [hv]; exact ⟨e, hexp, hlt⟩, fun _ => hv⟩
            · constructor
              · intro h; rw [hv] at h; cases h
              · intro hall
                obtain ⟨hne, hlt2⟩ := hlt
                rcases hall e hexp with h0 | hle
                · exact absurd h0 hne
                · omega
          · have hv : verifyToken cm secret token now = .ok p := by
              simp [verifyToken, hsp, hsig, hub, hpp, hexp, hlt]
            refine ⟨by simp [hv, hsp], ?_⟩
            rintro eh ep es heq
            obtain ⟨rfl, rfl, rfl⟩ : eh = a ∧ ep = b ∧ es = c := by
              simpa using heq.symm
            refine ⟨by simp [hv, hsig], ?_⟩
            intro q _ hdec'
            rw [hdec] at hdec'
            obtain rfl : p = q := by simpa using hdec'
            constructor
            · constructor
              · intro h; rw [hv] at h; cases h
              · rintro ⟨e', he', hne, hlt'⟩
                rw [hexp] at he'; cases he'
                exact absurd ⟨hne, hlt'⟩ hlt
            · refine ⟨fun _ => ?_, fun _ => hv⟩
              intro e' he'
              rw [hexp] at he'; cases he'
              omega
    · have hv : verifyToken cm secret token now = .error .badSignature := by
        simp [verifyToken, hsp, hsig]
      refine ⟨by simp [hv, hsp], ?_⟩
      rintro eh ep es heq
      obtain ⟨rfl, rfl, rfl⟩ : eh = a ∧ ep = b ∧ es = c := by
        simpa using heq.symm
      refine ⟨by simp [hv, hsig], ?_⟩
      intro p hsig' _
      exact absurd hsig' hsig

/-- A signed token whose embedded payload carries `exp = 0`. -/
def tok0 : List Char :=
  ('H' :: '.' :: encPayloadT ⟨"u".toList, "access".toList, 0, some 0⟩) ++
    '.' :: hmacT ("k".toList)
      ('H' :: '.' :: encPayloadT ⟨"u".toList, "access".toList, 0, some 0⟩)

/-- Counterexample to C2 as frozen: `tok0` splits into 3 parts, its signature
verifies and its payload embeds `expiresAt = 0 < now = 1`, so the claim
demands the expired error; the code's `payload.exp && payload.exp < now`
truthiness check skips the comparison for a zero `exp` and verification
succeeds. -/
theorem C2_cex_zero_exp :
    verifyToken cmTest ("k".toList) tok0 1
      = .ok ⟨"u".toList, "access".toList, 0, some 0⟩
    ∧ (0 : Nat) < 1
    ∧ verifyToken cmTest ("k".toList) tok0 1 ≠ .error .expired := by
  have h : verifyToken cmTest ("k".toList) tok0 1
      = .ok ⟨"u".toList, "access".toList, 0, some 0⟩ := rfl
  refine ⟨h, by decide, ?_⟩
  rw [h]
  intro hc
  exact Except.noConfusion hc

/-- Witness for C2 at a concrete token with the wrong part count. -/
theorem C2_verify_error_order_witness :
    verifyToken cmTest ("k".toList) ("ab".toList) 5 = .error .malformed := by
  exact (C2_verify_error_order cmTest ("k".toList) ("ab".toList) 5).1.mpr
    (by decide)

/-! ### C3: the refresh path accepts only refresh-kind tokens -/

/-- Reduction of `refreshTokens` once verification is known to succeed. -/
theorem refreshTokens_of_verify (cm : CryptoModel)
    (secret aExp rExp token : List Char) (now : Nat) (p : JWTPayload)
    (hv : verifyToken cm secret token now = .ok p) :
    refreshTokens cm secret aExp rExp token now
      = if p.type ≠ "refresh".toList then .error .wrongKind
        else .ok (generateTokens cm secret aExp rExp p.userId now) := by
  unfold refreshTokens
  rw [hv]

/-- C3: presenting the freshly issued access token to `refreshTokens` fails
with the wrong-token-kind error, while presenting the freshly issued refresh
token succeeds and issues a pair for the same subject (under the platform
round-trip facts for both payloads). -/
theorem C3_refresh_kind_check (cm : CryptoModel)
    (secret aExp rExp userId : List Char) (now : Nat) (pA pR : JWTPayload)
    (hpA : pA = ⟨userId, "access".toList, now, (parseExpiry aExp).map (now + ·)⟩)
    (hpR : pR = ⟨userId, "refresh".toList, now, (parseExpiry rExp).map (now + ·)⟩)
    (hndH : '.' ∉ cm.b64 headerJson)
    (hndA : '.' ∉ cm.b64 (cm.stringifyPayload pA))
    (hndR : '.' ∉ cm.b64 (cm.stringifyPayload pR))
    (hsgA : '.' ∉ cm.hmac secret
      (cm.b64 headerJson ++ '.' :: cm.b64 (cm.stringifyPayload pA)))
    (hsgR : '.' ∉ cm.hmac secret
      (cm.b64 headerJson ++ '.' :: cm.b64 (cm.stringifyPayload pR)))
    (hrtA : cm.unb64 (cm.b64 (cm.stringifyPayload pA))
      = some (cm.stringifyPayload pA))
    (hrtR : cm.unb64 (cm.b64 (cm.stringifyPayload pR))
      = some (cm.stringifyPayload pR))
    (hpsA : cm.parsePayload (cm.stringifyPayload pA) = some pA)
    (hpsR : cm.parsePayload (cm.stringifyPayload pR) = some pR) :
    refreshTokens cm secret aExp rExp
        (generateTokens cm secret aExp rExp userId now).accessToken now
      = .error .wrongKind
    ∧ refreshTokens cm secret aExp rExp
        (generateTokens cm secret aExp rExp userId now).refreshToken now
      = .ok (generateTokens cm secret aExp rExp userId now) := by
  have hA : verifyToken cm secret
      (generateTokens cm secret aExp rExp userId now).accessToken now
      = .ok pA := by
    have : (generateTokens cm secret aExp rExp userId now).accessToken
        = createJWT cm secret userId ("access".toList) (parseExpiry aExp) now := rfl
    rw [this]
    exact verify_createJWT cm secret userId _ _ now pA hpA hndH hndA hsgA hrtA hpsA
  have hR : verifyToken cm secret
      (generateTokens cm secret aExp rExp userId now).refreshToken now
      = .ok pR := by
    have : (generateTokens cm secret aExp rExp userId now).refreshToken
        = createJWT cm secret userId ("refresh".toList) (parseExpiry rExp) now := rfl
    rw [this]
    exact verify_createJWT cm secret userId _ _ now pR hpR hndH hndR hsgR hrtR hpsR
  constructor
  · have hne : pA.type ≠ "refresh".toList := by
      rw [hpA]
      show ¬ ("access".toList = "refresh".toList)
      decide
    rw [refreshTokens_of_verify cm secret aExp rExp _ now pA hA, if_pos hne]
  · have ht : pR.type = "refresh".toList := by rw [hpR]
    have hu : pR.userId = userId := by rw [hpR]
    have hcond : ¬ (pR.type ≠ "refresh".toList) := by rw [ht]; simp
    rw [refreshTokens_of_verify cm secret aExp rExp _ now pR hR, if_neg hcond, hu]

/-- Witness for C3 at the concrete crypto stand-in. -/
theorem C3_refresh_kind_check_witness :
    refreshTokens cmTest ("k".toList) ("1h".toList) ("30d".toList)
        (generateTokens cmTest ("k".toList) ("1h".toList) ("30d".toList)
          ("u".toList) 7).accessToken 7
      = .error .wrongKind
    ∧ refreshTokens cmTest ("k".toList) ("1h".toList) ("30d".toList)
        (generateTokens cmTest ("k".toList) ("1h".toList) ("30d".toList)
          ("u".toList) 7).refreshToken 7
      = .ok (generateTokens cmTest ("k".toList) ("1h".toList) ("30d".toList)
          ("u".toList) 7) := by
  exact C3_refresh_kind_check cmTest ("k".toList) ("1h".toList) ("30d".toList)
    ("u".toList) 7
    ⟨"u".toList, "access".toList, 7, some 3607⟩
    ⟨"u".toList, "refresh".toList, 7, some 2592007⟩
    (by decide) (by decide) (by decide) (by decide) (by decide) (by decide)
    (by decide) (by decide) (by decide) (by decide) (by decide)

/-! ### Rate Limiter (src AuthRateLimiter) -/

/-- One entry of the in-memory attempts map: `{count, lastAttempt}`.  Note the
stored timestamp is the time of the most recent attempt (the source field is
named `lastAttempt` and is updated on every call), not the time the window
began. -/
structure RLRecord where
  count : Nat
  lastAttempt : Nat
deriving DecidableEq

/-- The attempts map, keyed by client IP. -/
def RLState : Type := List Char → Option RLRecord

/-- `AuthRateLimiter.maxAttempts`. -/
def rlMaxAttempts : Nat := 5

/-- `AuthRateLimiter.windowMs` (15 minutes). -/
def rlWindowMs : Nat := 15 * 60 * 1000

/-- `AuthRateLimiter.isRateLimited(ip)` at time `now`: initializes the record
to count 1 when absent or when `now - lastAttempt > windowMs` (returning
false), otherwise increments the count, stamps `lastAttempt := now`, and
returns whether the new count exceeds `maxAttempts`. -/
def isRateLimited (st : RLState) (ip : List Char) (now : Nat) :
    Bool × RLState :=
  match st ip with
  | none => (false, fun k => if k = ip then some ⟨1, now⟩ else st k)
  | some record =>
    if now - record.lastAttempt > rlWindowMs then
      (false, fun k => if k = ip then some ⟨1, now⟩ else st k)
    else
      (record.count + 1 > rlMaxAttempts,
       fun k => if k = ip then some ⟨record.count + 1, now⟩ else st k)

/-- `AuthRateLimiter.reset(ip)`: deletes the record. -/
def rlReset (st : RLState) (ip : List Char) : RLState :=
  fun k => if k = ip then none else st k

/-- A sequence of `isRateLimited` calls at the given times, returning the
results and the final state. -/
def runCalls (st : RLState) (ip : List Char) : List Nat → List Bool × RLState
  | [] => ([], st)
  | t :: ts =>
    let r := isRateLimited st ip t
    let rest := runCalls r.2 ip ts
    (r.1 :: rest.1, rest.2)

/-- Consecutive call times each within the window of their predecessor. -/
def chainOK : Nat → List Nat → Prop
  | _, [] => True
  | prev, t :: ts => t - prev ≤ rlWindowMs ∧ chainOK t ts

/-- Helper: from a present record, a chained sequence of calls increments the
count one per call and blocks exactly when the running count exceeds 5. -/
theorem runCalls_from_record (ip : List Char) (ts : List Nat) :
    ∀ (st : RLState) (c t0 : Nat), st ip = some ⟨c, t0⟩ → chainOK t0 ts →
    (runCalls st ip ts).1
      = (List.range ts.length).map (fun i => decide (c + i + 1 > rlMaxAttempts))
    ∧ ((runCalls st ip ts).2 ip
        = some ⟨c + ts.length, (t0 :: ts).getLast (by simp)⟩) := by
  induction ts with
  | nil => intro st c t0 hst _; simpa [runCalls] using hst
  | cons t ts ih =>
    intro st c t0 hst hchain
    obtain ⟨hgap, hchain'⟩ := hchain
    have hnot : ¬ (t - t0 > rlWindowMs) := by omega
    have hstep : isRateLimited st ip t
        = (decide (c + 1 > rlMaxAttempts),
           fun k => if k = ip then some ⟨c + 1, t⟩ else st k) := by
      simp [isRateLimited, hst, hnot]
    have hst' : (isRateLimited st ip t).2 ip = some ⟨c + 1, t⟩ := by
      rw [hstep]; simp
    have := ih (isRateLimited st ip t).2 (c + 1) t hst' hchain'
    constructor
    · simp only [runCalls, List.length_cons, List.range_succ_eq_map,
        List.map_cons, List.map_map]
      refine congrArg₂ _ ?_ ?_
      · rw [hstep]
      · rw [this.1]
        congr 1
        funext i
        simp [Function.comp]
        omega
    · simp only [runCalls]
      rw [this.2]
      simp only [Option.some.injEq, RLRecord.mk.injEq, List.length_cons]
      constructor
      · omega
      · exact (List.getLast_cons (by simp)).symm

/-- The empty attempts map. -/
def rlEmpty : RLState := fun _ => none

/-- C4 (amended): (a) for an established record the count resets to 1 exactly
when `now` minus the time of the most recent prior attempt exceeds the
15-minute window; (b) starting fresh, a chain of calls each within the window
of its predecessor returns false for calls 1 through 5 and true from call 6
on; (c) a call to `reset` makes the very next call return false. -/
theorem C4_rate_limiter_window (ip : List Char) :
    (∀ (st : RLState) (now : Nat) (r : RLRecord), st ip = some r →
      1 ≤ r.count →
      (((isRateLimited st ip now).2 ip = some ⟨1, now⟩)
        ↔ rlWindowMs < now - r.lastAttempt)) ∧
    (∀ (st : RLState) (t : Nat) (ts : List Nat), st ip = none → chainOK t ts →
      (runCalls st ip (t :: ts)).1
        = (List.range (ts.length + 1)).map
            (fun i => decide (i + 1 > rlMaxAttempts))) ∧
    (∀ (st : RLState) (now : Nat),
      (isRateLimited (rlReset st ip) ip now).1 = false) := by
  refine ⟨?_, ?_, ?_⟩
  · intro st now r hst h1
    by_cases hw : now - r.lastAttempt > rlWindowMs
    · have hstep : (isRateLimited st ip now).2 ip = some ⟨1, now⟩ := by
        simp [isRateLimited, hst, hw]
      simp [hstep, hw]
    · have hstep : (isRateLimited st ip now).2 ip = some ⟨r.count + 1, now⟩ := by
        simp [isRateLimited, hst, hw]
      rw [hstep]
      simp only [Option.some.injEq, RLRecord.mk.injEq]
      constructor
      · intro hcc
        obtain ⟨h2, -⟩ := hcc
        omega
      · intro hcc
        exact absurd hcc hw
  · intro st t ts hst hchain
    have hfirst : isRateLimited st ip t
        = (false, fun k => if k = ip then some ⟨1, t⟩ else st k) := by
      simp [isRateLimited, hst]
    have hst' : (isRateLimited st ip t).2 ip = some ⟨1, t⟩ := by
      rw [hfirst]; simp
    have h := runCalls_from_record ip ts (isRateLimited st ip t).2 1 t hst' hchain
    simp only [runCalls]
    rw [show (isRateLimited st ip t).1 = false from by rw [hfirst], h.1,
      List.range_succ_eq_map, List.map_cons, List.map_map]
    have hB : decide (0 + 1 > rlMaxAttempts) = false := by decide
    rw [hB]
    refine congrArg (List.cons false) ?_
    apply List.map_congr_left
    intro a _
    simp only [Function.comp_apply]
    rw [decide_eq_decide]
    omega
  · intro st now
    simp [isRateLimited, rlReset]

/-- Counterexample to C4 as frozen: with attempts at 0ms, 10min and 20min the
third call is 20 minutes after the window began (at the first attempt), past
the 15-minute window, yet the count does not reset to 1: the code compares
`now` with the time of the previous attempt (10min, a sliding window), so the
record advances to count 3. -/
theorem C4_cex_fixed_window :
    ((runCalls rlEmpty ("ip".toList) [0, 600000, 1200000]).2 ("ip".toList)
      = some ⟨3, 1200000⟩)
    ∧ rlWindowMs < 1200000 - 0
    ∧ (runCalls rlEmpty ("ip".toList) [0, 600000, 1200000]).1
      = [false, false, false] := by
  refine ⟨by decide, by decide, by decide⟩

/-- Witness for C4 at a concrete client and concrete chained times. -/
theorem C4_rate_limiter_window_witness :
    (runCalls rlEmpty ("a".toList) [3, 4, 5, 6, 7, 8, 9]).1
      = [false, false, false, false, false, true, true]
    ∧ (isRateLimited (rlReset rlEmpty ("a".toList)) ("a".toList) 10).1 = false
    ∧ ((isRateLimited (fun k => if k = ("a".toList) then some ⟨4, 100⟩ else none)
          ("a".toList) (1000000 : Nat)).2 ("a".toList) = some ⟨1, 1000000⟩) := by
  refine ⟨?_, ?_, ?_⟩
  · have h := (C4_rate_limiter_window ("a".toList)).2.1 rlEmpty 3
      [4, 5, 6, 7, 8, 9] rfl (by simp [chainOK, rlWindowMs])
    rw [h]; decide
  · exact (C4_rate_limiter_window ("a".toList)).2.2 rlEmpty 10
  · have h := (C4_rate_limiter_window ("a".toList)).1
      (fun k => if k = ("a".toList) then some ⟨4, 100⟩ else none)
      1000000 ⟨4, 100⟩ (by simp) (by decide)
    exact h.mpr (by decide)

/-! ### Auth middleware (src/middleware/auth.ts) -/

/-- The headers and method of a request, each header a nullable string. -/
structure Req where
  method : List Char
  origin : Option (List Char)
  referer : Option (List Char)
  xRequestedWith : Option (List Char)
  xAppName : Option (List Char)
  authorization : Option (List Char)
  contentType : Option (List Char)
  cookie : Option (List Char)
  xAdminApiKey : Option (List Char)

/-- The environment bindings the middleware reads.  `sessions` models the
optional KV namespace: for a session id it yields `none` when the key is
absent, otherwise the truth of `JSON.parse(data).isAdmin === true` (a parse
failure is caught and behaves like `false`). -/
structure EnvM where
  adminPassword : Option (List Char)
  environment : Option (List Char)
  sessions : Option (List Char → Option Bool)
  jwtSecret : Option (List Char)

/-- `constantTimeEquals`: length check, then an accumulated XOR over the
character codes. -/
def constantTimeEquals (a b : List Char) : Bool :=
  if a.length ≠ b.length then false
  else
    decide (((a.zip b).foldl
      (fun result p => result ||| (p.1.toNat ^^^ p.2.toNat)) 0) = 0)

/-- `getCookieValue` body: first `;`-separated cookie whose trimmed
`=`-split head equals the name; the value is the second split segment
(`none` models JS `undefined` when there is no `=`). -/
def cookieLookup (nm : List Char) : List (List Char) → Option (List Char)
  | [] => none
  | ck :: rest =>
    let parts := splitOnChar '=' (trimList ck)
    if parts.headD [] = nm then parts.get? 1 else cookieLookup nm rest

/-- `getCookieValue(cookieHeader, name)`. -/
def getCookieValue (cookieHeader : Option (List Char)) (nm : List Char) :
    Option (List Char) :=
  match cookieHeader with
  | none => none
  | some h => cookieLookup nm (splitOnChar ';' h)

/-- `checkCookieAuth`: requires the SESSIONS binding, a truthy `adminSession`
cookie value, and a stored record whose `isAdmin === true`. -/
def checkCookieAuth (env : EnvM) (req : Req) : Bool :=
  match env.sessions with
  | none => false
  | some kv =>
    match getCookieValue req.cookie ("adminSession".toList) with
    | none => false
    | some sid =>
      if sid = [] then false
      else
        match kv sid with
        | some isAdmin => isAdmin
        | none => false

/-- `validatePassword`: password from `Authorization` (Bearer or raw) or the
legacy `X-Admin-API-Key` header, compared with `constantTimeEquals`;
falsy configured password or falsy provided password yield false. -/
def validatePassword (req : Req) (env : EnvM) : Bool :=
  match env.adminPassword with
  | none => false
  | some adminPassword =>
    if adminPassword = [] then false
    else
      let provided : Option (List Char) :=
        match req.authorization with
        | some a =>
          if listIsPrefixOf ("Bearer ".toList) a then some (a.drop 7)
          else if a ≠ [] then some a
          else
            match req.xAdminApiKey with
            | some k => if k ≠ [] then some k else none
            | none => none
        | none =>
          match req.xAdminApiKey with
          | some k => if k ≠ [] then some k else none
          | none => none
      match provided with
      | none => false
      | some p => if p = [] then false else constantTimeEquals p adminPassword

/-- `validateJWT` success (it returns null exactly when a secret is
configured, the token verifies, and the payload type is `access`); any
non-null response makes `requireAuth` fall through. -/
def validateJWTOk (cm : CryptoModel) (env : EnvM) (token : List Char)
    (now : Nat) : Bool :=
  match env.jwtSecret with
  | none => false
  | some secret =>
    match verifyToken cm secret token now with
    | .error _ => false
    | .ok payload => payload.type = "access".toList

/-- The three outcomes of `requireAuth`: pass (null), the 500
misconfiguration response, and the 401 authentication-required response. -/
inductive AuthOutcome where
  | pass
  | misconfigured
  | authRequired
deriving DecidableEq

/-- `requireAuth`: Bearer JWT, then cookie session, then header password;
on total failure a 500 when no admin password is configured, else a 401. -/
def requireAuth (cm : CryptoModel) (env : EnvM) (req : Req) (now : Nat) :
    AuthOutcome :=
  let jwtPass :=
    match req.authorization with
    | some a =>
      if listIsPrefixOf ("Bearer ".toList) a then
        validateJWTOk cm env (a.drop 7) now
      else false
    | none => false
  if jwtPass then .pass
  else if checkCookieAuth env req then .pass
  else if validatePassword req env then .pass
  else
    match env.adminPassword with
    | none => .misconfigured
    | some _ => .authRequired

/-! ### CSRF guard (src/middleware/auth.ts) -/

/-- `validateReferer`: allow-list check of Origin (preferred) or Referer
prefix; development mode adds the loopback origins. -/
def validateReferer (req : Req) (env : EnvM) : Bool :=
  let allowedOrigins :=
    ("https://component-management.vercel.app".toList) ::
      (if env.environment = some ("development".toList) then
        ["http://localhost:3000".toList, "http://localhost:5173".toList,
         "http://127.0.0.1:3000".toList, "http://127.0.0.1:5173".toList]
      else [])
  let refererCheck :=
    match req.referer with
    | some r =>
      if r = [] then false
      else allowedOrigins.any (fun ao => listIsPrefixOf ao r)
    | none => false
  match req.origin with
  | some o => if o = [] then refererCheck else allowedOrigins.contains o
  | none => refererCheck

/-- `validateJWTSignature`: presence of a Bearer-scheme Authorization header
(no cryptographic check here by design). -/
def validateJWTSignature (req : Req) : Bool :=
  match req.authorization with
  | some a => listIsPrefixOf ("Bearer ".toList) a
  | none => false

/-- The recognized `X-Requested-With` values. -/
def validXRequestedWithValues : List (List Char) :=
  ["XMLHttpRequest".toList, "fetch".toList, "application/json".toList,
   "component-api".toList]

/-- The first check of `validateCustomHeaders`: a truthy `X-Requested-With`
header holding one of the recognized values. -/
def xrwRecognized (req : Req) : Bool :=
  match req.xRequestedWith with
  | some x => x ≠ [] && validXRequestedWithValues.contains x
  | none => false

/-- The second check of `validateCustomHeaders`:
`customAppHeader === 'component-management'`. -/
def appNameOk (req : Req) : Bool :=
  decide (req.xAppName = some ("component-management".toList))

/-- `contentType?.includes('application/json')`. -/
def ctJsonB (req : Req) : Bool :=
  match req.contentType with
  | some ct => containsSub ct ("application/json".toList)
  | none => false

/-- `validateCustomHeaders`: recognized `X-Requested-With`, exact
`X-App-Name`, or JSON content type — where a simple POST with JSON content
type and no custom/Authorization header is still rejected (any other method
with a JSON content type passes this branch). -/
def validateCustomHeaders (req : Req) : Bool :=
  if xrwRecognized req then true
  else if req.xAppName = some ("component-management".toList) then true
  else if ctJsonB req then
    (if toUpperList req.method = "POST".toList
        && !(truthy req.xRequestedWith || truthy req.xAppName ||
              truthy req.authorization)
     then false else true)
  else false

/-- Outcome of `requireCSRFProtection`: pass (null) or the 403 response whose
details list the required layer count and the status of each signal. -/
inductive CSRFOutcome where
  | pass
  | reject (minLayers : Nat) (originOk headersOk jwtOk : Bool)
deriving DecidableEq

/-- Is the method, uppercased, one of POST/PUT/DELETE? -/
def isMutating (req : Req) : Bool :=
  toUpperList req.method = "POST".toList ||
    toUpperList req.method = "PUT".toList ||
    toUpperList req.method = "DELETE".toList

/-- `requireCSRFProtection`: non-mutating methods pass; mutating methods
count the three signals against the environment-dependent threshold. -/
def requireCSRFProtection (req : Req) (env : EnvM) : CSRFOutcome :=
  if ¬ isMutating req then .pass
  else
    let hasValidOrigin := validateReferer req env
    let hasValidHeaders := validateCustomHeaders req
    let hasValidJWT := validateJWTSignature req
    let protectionCount :=
      (if hasValidOrigin then 1 else 0) + (if hasValidHeaders then 1 else 0) +
        (if hasValidJWT then 1 else 0)
    let minProtectionLayers :=
      if env.environment = some ("development".toList) then 1 else 2
    if protectionCount < minProtectionLayers then
      .reject minProtectionLayers hasValidOrigin hasValidHeaders hasValidJWT
    else .pass

/-! ### C9: missing admin password and the 500 response -/

/-- C9 (amended): with no admin password configured, `requireAuth` never
returns the 401 authentication-required response: every request either passes
(via JWT or cookie session) or receives the distinct 500 misconfiguration
response. -/
theorem C9_misconfigured_500 (cm : CryptoModel) (env : EnvM) (req : Req)
    (now : Nat) (h : env.adminPassword = none) :
    requireAuth cm env req now ≠ .authRequired
    ∧ (requireAuth cm env req now = .pass
       ∨ requireAuth cm env req now = .misconfigured) := by
  have hval : requireAuth cm env req now = .pass
      ∨ requireAuth cm env req now = .misconfigured := by
    unfold requireAuth
    rw [h]
    dsimp only
    split
    · exact Or.inl rfl
    · split
      · exact Or.inl rfl
      · split
        · exact Or.inl rfl
        · exact Or.inr rfl
  refine ⟨?_, hval⟩
  rcases hval with hv | hv <;> rw [hv] <;> intro hc <;> cases hc

/-- A request carrying a valid admin session cookie. -/
def reqCookie : Req :=
  ⟨"POST".toList, none, none, none, none, none, none,
   some ("adminSession=abc".toList), none⟩

/-- An environment with a session store but no admin password. -/
def envNoPw : EnvM :=
  ⟨none, none, some (fun _ => some true), none⟩

/-- Counterexample to C9 as frozen: with no admin password configured, a
request with a valid admin session cookie still passes the gateway — it does
not receive the 500 misconfiguration response, so the short-circuit is not
taken for every request. -/
theorem C9_cex_cookie_pass :
    requireAuth cmTest envNoPw reqCookie 0 = .pass
    ∧ envNoPw.adminPassword = none
    ∧ AuthOutcome.pass ≠ AuthOutcome.misconfigured := by
  refine ⟨by decide, rfl, by intro hc; cases hc⟩

/-- Witness for C9 at a concrete bare environment and request. -/
theorem C9_misconfigured_500_witness :
    requireAuth cmTest ⟨none, none, none, none⟩
        ⟨"GET".toList, none, none, none, none, none, none, none, none⟩ 0
      ≠ .authRequired := by
  exact (C9_misconfigured_500 cmTest ⟨none, none, none, none⟩
    ⟨"GET".toList, none, none, none, none, none, none, none, none⟩ 0 rfl).1

/-! ### C6: the CSRF decision rule -/

/-- Reduction of `requireCSRFProtection` for a mutating request. -/
theorem requireCSRF_mutating (req : Req) (env : EnvM)
    (hm : isMutating req = true) :
    requireCSRFProtection req env
      = (if ((if validateReferer req env then 1 else 0) +
              (if validateCustomHeaders req then 1 else 0) +
              (if validateJWTSignature req then 1 else 0))
            < (if env.environment = some ("development".toList) then 1 else 2)
         then CSRFOutcome.reject
            (if env.environment = some ("development".toList) then 1 else 2)
            (validateReferer req env) (validateCustomHeaders req)
            (validateJWTSignature req)
         else .pass) := by
  simp [requireCSRFProtection, hm]

/-- C6: a non-mutating method always passes the CSRF guard (for every header
configuration); a mutating method passes exactly when the count of true
signals reaches the threshold (2 in production, 1 in development), and below
the threshold the guard rejects with the threshold and each signal's status. -/
theorem C6_csrf_decision (req : Req) (env : EnvM) :
    (isMutating req = false → requireCSRFProtection req env = .pass) ∧
    (isMutating req = true →
      (requireCSRFProtection req env = .pass
        ↔ (if env.environment = some ("development".toList) then 1 else 2)
            ≤ ((if validateReferer req env then 1 else 0) +
               (if validateCustomHeaders req then 1 else 0) +
               (if validateJWTSignature req then 1 else 0))) ∧
      (((if validateReferer req env then 1 else 0) +
        (if validateCustomHeaders req then 1 else 0) +
        (if validateJWTSignature req then 1 else 0))
          < (if env.environment = some ("development".toList) then 1 else 2) →
        requireCSRFProtection req env
          = .reject
              (if env.environment = some ("development".toList) then 1 else 2)
              (validateReferer req env) (validateCustomHeaders req)
              (validateJWTSignature req))) := by
  constructor
  · intro hm
    simp [requireCSRFProtection, hm]
  · intro hm
    rw [requireCSRF_mutating req env hm]
    by_cases hc : ((if validateReferer req env then 1 else 0) +
        (if validateCustomHeaders req then 1 else 0) +
        (if validateJWTSignature req then 1 else 0))
        < (if env.environment = some ("development".toList) then 1 else 2)
    · rw [if_pos hc]
      refine ⟨⟨fun hp => ?_, fun hle => ?_⟩, fun _ => rfl⟩
      · cases hp
      · omega
    · rw [if_neg hc]
      refine ⟨⟨fun _ => by omega, fun _ => rfl⟩, fun hlt => absurd hlt hc⟩

/-- Witness for C6: a production POST with Origin and X-Requested-With
signals passes; the bare POST is rejected with both signal statuses false
except none. -/
theorem C6_csrf_decision_witness :
    requireCSRFProtection
        ⟨"POST".toList, some ("https://component-management.vercel.app".toList),
         none, some ("XMLHttpRequest".toList), none, none, none, none, none⟩
        ⟨none, none, none, none⟩
      = .pass
    ∧ requireCSRFProtection
        ⟨"POST".toList, none, none, none, none, none, none, none, none⟩
        ⟨none, none, none, none⟩
      = .reject 2 false false false := by
  constructor
  · exact ((C6_csrf_decision _ _).2 (by decide)).1.mpr (by decide)
  · have h := ((C6_csrf_decision
      ⟨"POST".toList, none, none, none, none, none, none, none, none⟩
      ⟨none, none, none, none⟩).2 (by decide)).2 (by decide)
    rw [h]
    decide

/-! ### C7: the custom-header CSRF signal -/

/-- The header signal exactly as the spec sentence words it (the refinement
comparison definition, written from the spec, not from the code): recognized
`X-Requested-With`, or exact `X-App-Name`, or JSON content type together with
at least one of the two custom headers or an Authorization header. -/
def specHeaderSignal (req : Req) : Bool :=
  xrwRecognized req || appNameOk req ||
    (ctJsonB req &&
      (truthy req.xRequestedWith || truthy req.xAppName ||
        truthy req.authorization))

/-- A PUT request whose only header is a JSON content type. -/
def reqPutJson : Req :=
  ⟨"PUT".toList, none, none, none, none, none,
   some ("application/json".toList), none, none⟩

/-- Counterexample to C7 as frozen: on a PUT carrying only a JSON content
type (no custom headers, no Authorization), the code's header signal is true
— the `method === 'POST'` guard only rejects bare-JSON POSTs — while the
spec's signal is false. -/
theorem C7_cex_put_json :
    validateCustomHeaders reqPutJson = true
    ∧ specHeaderSignal reqPutJson = false := by
  exact ⟨by decide, by decide⟩

/-- C7 (amended): the header signal is true iff a recognized
`X-Requested-With` value is present, or the custom application header matches
its expected value, or the content type is JSON and (the uppercased method is
not POST, or at least one of the two custom headers or an Authorization
header is present).  In particular only a bare-JSON POST yields a false
signal from the JSON branch. -/
theorem C7_header_signal (req : Req) :
    validateCustomHeaders req
      = (xrwRecognized req || appNameOk req ||
         (ctJsonB req &&
          (decide (toUpperList req.method ≠ "POST".toList) ||
           (truthy req.xRequestedWith || truthy req.xAppName ||
            truthy req.authorization)))) := by
  unfold validateCustomHeaders
  by_cases hx : xrwRecognized req = true
  · rw [if_pos hx, hx]
    rfl
  · rw [if_neg hx]
    have hxf : xrwRecognized req = false := by
      revert hx; cases xrwRecognized req <;> simp
    rw [hxf, Bool.false_or]
    by_cases ha : req.xAppName = some ("component-management".toList)
    · rw [if_pos ha]
      have haB : appNameOk req = true := by
        unfold appNameOk; exact decide_eq_true ha
      rw [haB]
      rfl
    · rw [if_neg ha]
      have haB : appNameOk req = false := by
        unfold appNameOk; exact decide_eq_false ha
      rw [haB, Bool.false_or]
      cases hj : ctJsonB req
      · simp
      · by_cases hp : toUpperList req.method = "POST".toList
        · cases hh : (truthy req.xRequestedWith || truthy req.xAppName ||
              truthy req.authorization) <;> simp [hp, hh]
        · simp [hp]

/-! ### A small JS-regex engine over List Char

The sanitizer is regex-driven.  `mtch` enumerates, in JS backtracking
priority order (leftmost-first, greedy or lazy per quantifier), the lengths a
pattern can consume from a suffix together with the capture groups; the fuel
argument only bounds the recursion depth (each call consumes one unit, and
the bound chosen in `mtchTop` exceeds the maximal backtracking depth), so it
never changes the result.  `replaceAll` is `String.prototype.replace` with
the global flag: scan left to right, take the first (highest-priority) match
at the first matching position, emit the replacement, continue after the
match.  A leading `\b` in a pattern is handled by the scanner via the
`lb` flag (the only place the code uses a left context). -/

abbrev Caps := List (Nat × List Char)

inductive RE where
  | eps : RE
  | cls : (Char → Bool) → RE
  | cat : RE → RE → RE
  | alt : RE → RE → RE
  | star : Bool → RE → RE
  | group : Nat → RE → RE
  | backref : Nat → RE
  | nlk : RE → RE

/-- Case-insensitive prefix test (for backreferences under the `i` flag). -/
def ciPrefixOf : List Char → List Char → Bool
  | [], _ => true
  | _ :: _, [] => false
  | a :: as', b :: bs => a.toLower = b.toLower && ciPrefixOf as' bs

def mtch : Nat → RE → List Char → Caps → List (Nat × Caps)
  | 0, _, _, _ => []
  | _ + 1, .eps, _, env => [(0, env)]
  | _ + 1, .cls p, s, env =>
    match s with
    | [] => []
    | c :: _ => if p c then [(1, env)] else []
  | fuel + 1, .cat r1 r2, s, env =>
    (mtch fuel r1 s env).flatMap (fun le =>
      (mtch fuel r2 (s.drop le.1) le.2).map (fun le2 => (le.1 + le2.1, le2.2)))
  | fuel + 1, .alt r1 r2, s, env =>
    mtch fuel r1 s env ++ mtch fuel r2 s env
  | fuel + 1, .star lz r, s, env =>
    let opts :=
      (mtch fuel r s env).flatMap (fun le =>
        if 0 < le.1 then
          (mtch fuel (.star lz r) (s.drop le.1) le.2).map
            (fun le2 => (le.1 + le2.1, le2.2))
        else [])
    if lz then (0, env) :: opts else opts ++ [(0, env)]
  | fuel + 1, .group i r, s, env =>
    (mtch fuel r s env).map (fun le => (le.1, (i, s.take le.1) :: le.2))
  | _ + 1, .backref i, s, env =>
    let v := (env.lookup i).getD []
    if ciPrefixOf v s then [(v.length, env)] else []
  | fuel + 1, .nlk r, s, env =>
    if (mtch fuel r s env).isEmpty then [(0, env)] else []

def reSize : RE → Nat
  | .eps => 1
  | .cls _ => 1
  | .cat a b => reSize a + reSize b + 1
  | .alt a b => reSize a + reSize b + 1
  | .star _ a => reSize a + 1
  | .group _ a => reSize a + 1
  | .backref _ => 1
  | .nlk a => reSize a + 1

/-- All matches of `r` at the head of `s`, best (JS-chosen) first. -/
def mtchTop (r : RE) (s : List Char) : List (Nat × Caps) :=
  mtch ((reSize r + 1) * (s.length + 2)) r s []

/-- A pattern: `lb` marks a leading `\b` (previous character must not be a
word character). -/
structure Pat where
  lb : Bool
  re : RE

def matchHere (p : Pat) (prevWord : Bool) (s : List Char) :
    Option (Nat × Caps) :=
  if p.lb && prevWord then none
  else
    match mtchTop p.re s with
    | [] => none
    | lc :: _ => some lc

def lastCharWord (s : List Char) (dflt : Bool) : Bool :=
  match s.getLast? with
  | some c => isWordC c
  | none => dflt

def replGo (p : Pat) (f : List Char → Caps → List Char) :
    Nat → Bool → List Char → List Char
  | 0, _, s => s
  | _ + 1, _, [] => []
  | fuel + 1, prevW, c :: rest =>
    match matchHere p prevW (c :: rest) with
    | some (len, caps) =>
      if len = 0 then c :: replGo p f fuel (isWordC c) rest
      else
        f ((c :: rest).take len) caps ++
          replGo p f fuel (lastCharWord ((c :: rest).take len) prevW)
            ((c :: rest).drop len)
    | none => c :: replGo p f fuel (isWordC c) rest

/-- JS `s.replace(pattern-with-g-flag, f)`. -/
def replaceAll (p : Pat) (f : List Char → Caps → List Char)
    (s : List Char) : List Char :=
  replGo p f (s.length + 1) false s

def srchGo (p : Pat) : Nat → Bool → List Char → Bool
  | 0, _, _ => false
  | _ + 1, prevW, [] => (matchHere p prevW []).isSome
  | fuel + 1, prevW, c :: rest =>
    (matchHere p prevW (c :: rest)).isSome || srchGo p fuel (isWordC c) rest

/-- JS `pattern.test(s)`. -/
def reTestP (p : Pat) (s : List Char) : Bool :=
  srchGo p (s.length + 1) false s

/-! #### Pattern building blocks -/

def chrE (c : Char) : RE := .cls (fun d => d = c)
def chrCI (c : Char) : RE := .cls (fun d => d.toLower = c.toLower)
def litCI (w : List Char) : RE := w.foldr (fun c acc => .cat (chrCI c) acc) .eps
def strCI (w : String) : RE := litCI w.toList
def reSeq (rs : List RE) : RE := rs.foldr .cat .eps
def reAlts : List RE → RE
  | [] => .eps
  | [r] => r
  | r :: rs => .alt r (reAlts rs)
def wsSt : RE := .star false (.cls isSpaceC)
def wsPl : RE := .cat (.cls isSpaceC) wsSt
def rePlus (r : RE) : RE := .cat r (.star false r)
def wordPl : RE := rePlus (.cls isWordC)
def reOpt (r : RE) : RE := .alt r .eps
def anyQ : RE := .cls (fun c => c = '"' ∨ c = '\'')
def notQ : RE := .cls (fun c => ¬ (c = '"' ∨ c = '\''))
def notGT : RE := .cls (fun c => c ≠ '>')
def notLT : RE := .cls (fun c => c ≠ '<')
def dotC : RE := .cls (fun c => c ≠ '\n' ∧ c ≠ '\r')
def anyC : RE := .cls (fun _ => true)
def nwb : RE := .nlk (.cls isWordC)
def isHexDigitC (c : Char) : Bool :=
  c.isDigit ∨ ('a' ≤ c.toLower ∧ c.toLower ≤ 'f')
def mkP (r : RE) : Pat := ⟨false, r⟩
def mkPB (r : RE) : Pat := ⟨true, r⟩

/-! ### Content Sanitizer (src/utils/validation.ts) -/

/-- The tag whitelist (lowercase, compared against the lowercased tag name). -/
def allowedHTMLTags : List (List Char) :=
  (["div", "span", "p", "h1", "h2", "h3", "h4", "h5", "h6",
    "button", "input", "label", "form", "a", "textarea", "select", "option",
    "ul", "ol", "li", "dl", "dt", "dd", "table", "tr", "td", "th", "thead",
    "tbody", "tfoot",
    "section", "article", "header", "footer", "nav", "main", "aside",
    "strong", "em", "b", "i", "u", "br", "hr", "small", "sub", "sup", "mark",
    "img", "figure", "figcaption",
    "details", "summary",
    "code", "pre", "kbd", "samp", "var",
    "blockquote", "cite", "q", "abbr", "dfn",
    "time", "address",
    "canvas",
    "svg", "path", "circle", "rect", "ellipse", "line", "polygon",
    "g", "defs", "title", "desc"]).map String.toList

/-- The attribute whitelist, with the `data-*` / `aria-*` / `xmlns:*`
wildcard families (entries are compared verbatim against the lowercased
attribute name, as in the source). -/
def allowedHTMLAttributes : List (List Char) :=
  (["class", "id", "style", "data-*", "aria-*", "role",
    "type", "name", "value", "placeholder", "href", "target",
    "src", "alt", "width", "height", "title",
    "viewBox", "xmlns", "xmlns:*", "d", "fill", "stroke", "stroke-width",
    "stroke-linecap", "stroke-linejoin",
    "cx", "cy", "r", "rx", "ry", "x", "y", "x1", "y1", "x2", "y2",
    "points", "transform", "opacity", "fill-opacity",
    "stroke-opacity"]).map String.toList

/-- `/<script\b[^<]*(?:(?!<\/script>)<[^<]*)*<\/script>/gi`. -/
def scriptBlockRE : RE :=
  reSeq [strCI "<script", nwb, .star false notLT,
    .star false (reSeq [.nlk (strCI "</script>"), chrE '<', .star false notLT]),
    strCI "</script>"]

/-- `dangerousHTMLPatterns`, in source order. -/
def dangerousHTMLPatterns : List Pat :=
  [mkP scriptBlockRE,
   mkP (reSeq [strCI "<iframe", nwb, .star false notGT, chrE '>']),
   mkP (reSeq [strCI "<object", nwb, .star false notGT, chrE '>']),
   mkP (reSeq [strCI "<embed", nwb, .star false notGT, chrE '>']),
   mkP (reSeq [strCI "<link", nwb, .star false notGT, chrE '>']),
   mkP (reSeq [strCI "<meta", nwb, .star false notGT, chrE '>']),
   mkP (reSeq [strCI "<base", nwb, .star false notGT, chrE '>']),
   mkP (reSeq [strCI "<form", nwb, .star false notGT, strCI "action", wsSt,
     chrE '=', wsSt, anyQ, .star false notQ, anyQ, .star false notGT,
     chrE '>']),
   mkP (reSeq [strCI "on", wordPl, wsSt, chrE '=', wsSt, anyQ,
     .star false notQ, anyQ]),
   mkP (reSeq [strCI "on", wordPl, wsSt, chrE '=', wsSt,
     rePlus (.cls (fun c => ¬ (c = '"' ∨ c = '\'' ∨ isSpaceC c ∨ c = '>')))]),
   mkP (strCI "javascript:"),
   mkP (strCI "vbscript:"),
   mkP (strCI "data:text/html"),
   mkP (strCI "data:text/javascript"),
   mkP (strCI "data:application/x-javascript"),
   mkP (reSeq [strCI "<svg", nwb, .star false notGT, strCI "on", wordPl,
     wsSt, chrE '=']),
   mkP (reSeq [strCI "<math", nwb, .star false notGT, strCI "on", wordPl,
     wsSt, chrE '=']),
   mkP (strCI "&lt;script"),
   mkP (reSeq [strCI "&gt;", .star true dotC, strCI "&lt;/script&gt;"]),
   mkP (reSeq [strCI "&#x", rePlus (.cls isHexDigitC), reOpt (chrE ';')]),
   mkP (reSeq [strCI "&#", rePlus (.cls Char.isDigit), reOpt (chrE ';')])]

/-- `dangerousSVGPatterns`, in source order. -/
def dangerousSVGPatterns : List Pat :=
  [mkP (reSeq [strCI "<foreignObject", nwb, .star false notGT, chrE '>']),
   mkP (reSeq [strCI "<use", nwb, .star false notGT, chrE '>']),
   mkP (reSeq [strCI "<image", nwb, .star false notGT, chrE '>']),
   mkP (reSeq [strCI "<animate", nwb, .star false notGT, chrE '>']),
   mkP (reSeq [strCI "<animateTransform", nwb, .star false notGT, chrE '>']),
   mkP (reSeq [strCI "<animateMotion", nwb, .star false notGT, chrE '>']),
   mkP (reSeq [strCI "<set", nwb, .star false notGT, chrE '>']),
   mkP (reSeq [strCI "href", wsSt, chrE '=', wsSt, anyQ, .star false notQ,
     anyQ]),
   mkP (reSeq [strCI "xlink:href", wsSt, chrE '=', wsSt, anyQ,
     .star false notQ, anyQ]),
   mkP scriptBlockRE]

/-- `dangerousCSSPatterns`, in source order. -/
def dangerousCSSPatterns : List Pat :=
  [mkP (strCI "javascript:"),
   mkP (reSeq [strCI "expression", wsSt, chrE '(']),
   mkP (reSeq [strCI "behavior", wsSt, chrE ':']),
   mkP (reSeq [strCI "binding", wsSt, chrE ':']),
   mkP (strCI "@import"),
   mkP (reSeq [strCI "url", wsSt, chrE '(', wsSt, reOpt anyQ, wsSt,
     strCI "javascript:"]),
   mkP (reSeq [strCI "url", wsSt, chrE '(', wsSt, reOpt anyQ, wsSt,
     strCI "data:text/html"]),
   mkP (reSeq [strCI "url", wsSt, chrE '(', wsSt, reOpt anyQ, wsSt,
     strCI "data:text/javascript"]),
   mkP (strCI "vbscript:"),
   mkP (strCI "mozbinding:"),
   mkP (strCI "-moz-binding"),
   mkP (reSeq [strCI "filter", wsSt, chrE ':', wsSt, strCI "progid"]),
   mkP (reSeq [strCI "zoom", wsSt, chrE ':', wsSt, strCI "expression"]),
   mkP (reSeq [strCI "behavior", wsSt, chrE ':', wsSt, strCI "url"]),
   mkP (reSeq [strCI "content", wsSt, chrE ':', wsSt, strCI "url", wsSt,
     chrE '(']),
   mkP (strCI "@charset"),
   mkP (strCI "@namespace")]

/-- One sequential `.replace(/c/g, rep)` step of `encodeHTMLEntities`. -/
def substChar (c : Char) (rep : List Char) (s : List Char) : List Char :=
  s.foldr (fun d acc => if d = c then rep ++ acc else d :: acc) []

/-- `encodeHTMLEntities`: the six sequential global replaces, ampersand
first. -/
def encodeHTMLEntities (s : List Char) : List Char :=
  substChar '/' ("&#x2F;".toList)
    (substChar '\'' ("&#x27;".toList)
      (substChar '"' ("&quot;".toList)
        (substChar '>' ("&gt;".toList)
          (substChar '<' ("&lt;".toList)
            (substChar '&' ("&amp;".toList) s)))))

/-- `/\/\*[\s\S]*?\*\//g` — CSS comments. -/
def cssCommentPat : Pat := mkP (reSeq [strCI "/*", .star true anyC, strCI "*/"])

/-- `/url\s*\(\s*["']?([^"')]+)["']?\s*\)/gi`. -/
def cssUrlPat : Pat :=
  mkP (reSeq [strCI "url", wsSt, chrE '(', wsSt, reOpt anyQ,
    .group 1 (rePlus (.cls (fun c => ¬ (c = '"' ∨ c = '\'' ∨ c = ')')))),
    reOpt anyQ, wsSt, chrE ')'])

/-- `/@(import|charset|namespace)\b[^;]+;?/gi`. -/
def cssAtRulePat : Pat :=
  mkP (reSeq [chrE '@',
    .group 1 (reAlts [strCI "import", strCI "charset", strCI "namespace"]),
    nwb, rePlus (.cls (fun c => c ≠ ';')), reOpt (chrE ';')])

/-- `/([\w-]+)\s*:\s*([^;]+);?/gi` — per-declaration pass. -/
def cssDeclPat : Pat :=
  mkP (reSeq [.group 1 (rePlus (.cls (fun c => isWordC c ∨ c = '-'))), wsSt,
    chrE ':', wsSt, .group 2 (rePlus (.cls (fun c => c ≠ ';'))),
    reOpt (chrE ';')])

/-- `/\s+/g`. -/
def wsPlusPat : Pat := mkP wsPl

/-- `/;\s*;/g`. -/
def semiSemiPat : Pat := mkP (reSeq [chrE ';', wsSt, chrE ';'])

/-- `sanitizeCSS`, step for step. -/
def sanitizeCSS (css : List Char) : List Char :=
  if css = [] then []
  else
    let s1 := dangerousCSSPatterns.foldl
      (fun acc p => replaceAll p
        (fun _ _ => "/* removed dangerous content */".toList) acc) css
    let s2 := replaceAll cssCommentPat (fun _ _ => []) s1
    let s3 := replaceAll cssUrlPat (fun _ caps =>
      let url := (caps.lookup 1).getD []
      let lower := toLowerList url
      let isUrlSafe :=
        (["https:", "http:", "data:image/", "data:font/"].map
          String.toList).any
          (fun scheme =>
            listIsPrefixOf scheme lower || listIsPrefixOf ("/".toList) url)
      if isUrlSafe && !(containsSub lower ("javascript:".toList))
          && !(containsSub lower ("vbscript:".toList)) then
        "url(\"".toList ++ url.filter (fun c => ¬ (c = '"' ∨ c = '\''))
          ++ "\")".toList
      else "/* unsafe url removed */".toList) s2
    let s4 := replaceAll cssAtRulePat
      (fun _ _ => "/* dangerous @-rule removed */".toList) s3
    let s5 := replaceAll cssDeclPat (fun m caps =>
      let property := (caps.lookup 1).getD []
      let value := (caps.lookup 2).getD []
      let prop := toLowerList property
      let val := toLowerList value
      if (prop = "content".toList ∨ prop = "background".toList)
          ∧ containsSub val ("url(".toList) then
        property ++ (": /* url not allowed in ".toList) ++ prop
          ++ (" */;".toList)
      else if prop = "position".toList ∧ val = "fixed".toList then
        property ++ (": absolute; /* fixed positioning restricted */".toList)
      else if prop = "z-index".toList then
        match parseIntJS val with
        | some z =>
          if z > 9999 then property ++ (": 9999; /* z-index capped */".toList)
          else m
        | none => m
      else m) s4
    let s6 := replaceAll wsPlusPat (fun _ _ => [' ']) s5
    let s7 := replaceAll semiSemiPat (fun _ _ => [';']) s6
    trimList s7

/-- Does the (lowercased) attribute name survive the whitelist? -/
def attrAllowed (attr : List Char) : Bool :=
  allowedHTMLAttributes.any (fun allowed =>
    if allowed.getLast? = some '*' then listIsPrefixOf allowed.dropLast attr
    else attr = allowed)

/-- `/\s+([\w:-]+)\s*=\s*["']([^"']*)["']/gi`. -/
def attrPat : Pat :=
  mkP (reSeq [wsPl,
    .group 1 (rePlus (.cls (fun c => isWordC c ∨ c = ':' ∨ c = '-'))),
    wsSt, chrE '=', wsSt, anyQ, .group 2 (.star false notQ), anyQ])

/-- `sanitizeHTMLAttributes`: drop non-whitelisted attributes, route `style`
through `sanitizeCSS`, drop script-scheme values, entity-encode the rest
(the source's data- and aria- branch and its default branch build the same
string). -/
def sanitizeHTMLAttributes (tag : List Char) : List Char :=
  replaceAll attrPat (fun _ caps =>
    let attrName := (caps.lookup 1).getD []
    let attrValue := (caps.lookup 2).getD []
    let attr := toLowerList attrName
    if ¬ attrAllowed attr then []
    else if attr = "style".toList then
      let cleanedStyle := sanitizeCSS attrValue
      if cleanedStyle ≠ [] then
        ' ' :: attrName ++ '=' :: '"' :: cleanedStyle ++ ['"']
      else []
    else if containsSubCI attrValue ("javascript:".toList)
        || containsSubCI attrValue ("vbscript:".toList) then []
    else if listIsPrefixOf ("data-".toList) attr
        || listIsPrefixOf ("aria-".toList) attr then
      ' ' :: attrName ++ '=' :: '"' :: encodeHTMLEntities attrValue ++ ['"']
    else ' ' :: attrName ++ '=' :: '"' :: encodeHTMLEntities attrValue ++ ['"'])
    tag

/-- `/<\/?([a-zA-Z][a-zA-Z0-9]*)\b[^>]*>/gi`. -/
def tagPat : Pat :=
  mkP (reSeq [chrE '<', reOpt (chrE '/'),
    .group 1 (.cat (.cls Char.isAlpha)
      (.star false (.cls (fun c => c.isAlpha ∨ c.isDigit)))),
    nwb, .star false notGT, chrE '>'])

/-- `sanitizeHTMLTags`: whitelisted tags keep (sanitized) attributes, all
other tags are deleted. -/
def sanitizeHTMLTags (html : List Char) : List Char :=
  replaceAll tagPat (fun m caps =>
    let tagName := (caps.lookup 1).getD []
    if allowedHTMLTags.contains (toLowerList tagName) then
      sanitizeHTMLAttributes m
    else []) html

/-- `/<svg\b[^>]*>/i` (test only). -/
def svgOpenPat : Pat :=
  mkP (reSeq [strCI "<svg", nwb, .star false notGT, chrE '>'])

/-- `/<svg\b[^>]*>[\s\S]*?<\/svg>/gi`. -/
def svgBlockPat : Pat :=
  mkP (reSeq [strCI "<svg", nwb, .star false notGT, chrE '>',
    .star true anyC, strCI "</svg>"])

/-- `/<(svg|g|path|circle|rect|ellipse|line|polygon|defs|title|desc)\b([^>]*)>/gi`. -/
def svgTagAttrPat : Pat :=
  mkP (reSeq [chrE '<',
    .group 1 (reAlts [strCI "svg", strCI "g", strCI "path", strCI "circle",
      strCI "rect", strCI "ellipse", strCI "line", strCI "polygon",
      strCI "defs", strCI "title", strCI "desc"]),
    nwb, .group 2 (.star false notGT), chrE '>'])

/-- `sanitizeSVG`: strip the SVG-specific dangerous patterns, then delegate
the attribute handling of the whitelisted SVG tags. -/
def sanitizeSVG (svgContent : List Char) : List Char :=
  let s1 := dangerousSVGPatterns.foldl
    (fun acc p => replaceAll p
      (fun _ _ => "<!-- removed for security -->".toList) acc) svgContent
  replaceAll svgTagAttrPat (fun _ caps =>
    sanitizeHTMLAttributes
      ('<' :: (caps.lookup 1).getD [] ++ (caps.lookup 2).getD [] ++ ['>']))
    s1

/-- Step 3 of `sanitizeHTML`: normalize the five named/hex entities back to
literal characters (each a global case-insensitive replace, in source
order). -/
def entityNormalize (s : List Char) : List Char :=
  replaceAll (mkP (strCI "&#x2F;")) (fun _ _ => ['/'])
    (replaceAll (mkP (strCI "&#x27;")) (fun _ _ => ['\''])
      (replaceAll (mkP (strCI "&quot;")) (fun _ _ => ['"'])
        (replaceAll (mkP (strCI "&gt;")) (fun _ _ => ['>'])
          (replaceAll (mkP (strCI "&lt;")) (fun _ _ => ['<']) s))))

/-- `/<(\w+)(\s[^>]*)?\s*><\/\1>/gi` — empty tag pairs. -/
def emptyTagPat : Pat :=
  mkP (reSeq [chrE '<', .group 1 wordPl,
    reOpt (.group 2 (.cat (.cls isSpaceC) (.star false notGT))),
    wsSt, chrE '>', strCI "</", .backref 1, chrE '>'])

/-- `sanitizeHTML`, step for step: dangerous-pattern strip, conditional SVG
pass, entity normalization, tag whitelist, dangerous-pattern strip again,
empty-tag removal and whitespace normalization. -/
def sanitizeHTML (html : List Char) : List Char :=
  if html = [] then []
  else
    let s1 := dangerousHTMLPatterns.foldl
      (fun acc p => replaceAll p (fun _ _ => []) acc) html
    let s2 :=
      if reTestP svgOpenPat s1 then
        replaceAll svgBlockPat (fun m _ => sanitizeSVG m) s1
      else s1
    let s3 := entityNormalize s2
    let s4 := sanitizeHTMLTags s3
    let s5 := dangerousHTMLPatterns.foldl
      (fun acc p => replaceAll p (fun _ _ => []) acc) s4
    let s6 := replaceAll emptyTagPat (fun _ _ => []) s5
    let s7 := replaceAll wsPlusPat (fun _ _ => [' ']) s6
    trimList s7

/-- The backtick character (kept out of the source text). -/
def btick : Char := Char.ofNat 96

/-- Member of the three JS quote characters. -/
def isQ3 (c : Char) : Bool := c = '"' ∨ c = '\'' ∨ c = btick

/-- `criticalPatterns` of `sanitizeJS`, in source order; the `lb` flag
carries the leading `\b` of eval / new Function / import / require. -/
def criticalPatterns : List Pat :=
  [mkPB (reSeq [strCI "eval", wsSt, chrE '(']),
   mkPB (reSeq [strCI "new", wsPl, strCI "Function", wsSt, chrE '(']),
   mkP (reSeq [strCI "setTimeout", wsSt, chrE '(', wsSt, .cls isQ3,
     .star false (.cls (fun c => ¬ isQ3 c)), strCI "<script"]),
   mkP (reSeq [strCI "setInterval", wsSt, chrE '(', wsSt, .cls isQ3,
     .star false (.cls (fun c => ¬ isQ3 c)), strCI "<script"]),
   mkP (reSeq [strCI "document.write", wsSt, chrE '(']),
   mkP (reSeq [strCI "document.writeln", wsSt, chrE '(']),
   mkP (reSeq [strCI "location", wsSt, chrE '=', wsSt, .cls isQ3,
     strCI "javascript:"]),
   mkP (reSeq [strCI "window", wsSt, chrE '[', wsSt, .cls isQ3, strCI "eval",
     .cls isQ3, wsSt, chrE ']']),
   mkP (reSeq [chrE '[', wsSt, .cls isQ3, strCI "constructor", .cls isQ3,
     wsSt, chrE ']']),
   mkPB (reSeq [strCI "import", wsSt, chrE '(']),
   mkPB (reSeq [strCI "require", wsSt, chrE '(']),
   mkP (reSeq [strCI "<script", .star false notGT, chrE '>']),
   mkP (strCI "javascript:"),
   mkP (strCI "vbscript:"),
   mkP (strCI "data:text/html")]

/-- `sanitizeJS` (the relaxed generation in src/utils/validation.ts):
strip the critical patterns, normalize whitespace, and fall back to the
placeholder comment when everything was stripped. -/
def sanitizeJS (js : List Char) : List Char :=
  if js = [] then []
  else
    let s1 := criticalPatterns.foldl
      (fun acc p => replaceAll p
        (fun _ _ => "/* potentially dangerous code removed */".toList) acc) js
    let s2 := replaceAll wsPlusPat (fun _ _ => [' ']) s1
    let s3 := replaceAll semiSemiPat (fun _ _ => [';']) s2
    let s4 := trimList s3
    if s4 = [] then "/* Empty JavaScript content */".toList else s4

/-! ### Request Validator (zod schemas of src/utils/validation.ts) -/

/-- A well-typed create/update payload shape as zod sees it: each field
absent or a string; tags absent, a string, or an array of strings.  Inputs of
other runtime types are rejected by zod and lie outside this model. -/
structure RawComponent where
  name : Option (List Char)
  category : Option (List Char)
  html : Option (List Char)
  css : Option (List Char)
  js : Option (List Char)
  tags : Option (Sum (List Char) (List (List Char)))

/-- The parsed output of `ComponentSchema`. -/
structure ComponentData where
  name : List Char
  category : List Char
  html : List Char
  css : List Char
  js : List Char
  tags : List (List Char)
deriving DecidableEq

/-- The tags transform: a comma-separated string is split, trimmed and purged
of empties (`filter(Boolean)`); an array passes through. -/
def tagsTransform : Sum (List Char) (List (List Char)) → List (List Char)
  | .inl s => ((splitOnChar ',' s).map trimList).filter (fun t => t ≠ [])
  | .inr l => l

/-- `ComponentSchema.safeParse` on a well-typed shape: `name` required with
`min(1)`/`max(100)`; `category` `max(50)` defaulting to "Other"; html/css/js
`max(50000)` defaulting to ""; tags via `tagsTransform` defaulting to `[]`. -/
def parseComponent (raw : RawComponent) : Option ComponentData :=
  match raw.name with
  | none => none
  | some n =>
    if n.length < 1 then none
    else if n.length > 100 then none
    else
      let category := raw.category.getD ("Other".toList)
      if category.length > 50 then none
      else
        let html := raw.html.getD []
        if html.length > 50000 then none
        else
          let css := raw.css.getD []
          if css.length > 50000 then none
          else
            let js := raw.js.getD []
            if js.length > 50000 then none
            else
              some ⟨n, category, html, css, js,
                (raw.tags.map tagsTransform).getD []⟩

/-- `validateAndSanitizeComponent` (the returned `data`; the warnings list
and logging carry no field information and are omitted).  The
`replace(/[<>]/g, '')` steps are the angle-bracket filters. -/
def validateAndSanitizeComponent (raw : RawComponent) :
    Option ComponentData :=
  (parseComponent raw).map (fun validated =>
    ⟨(trimList validated.name).filter (fun c => ¬ (c = '<' ∨ c = '>')),
     (trimList validated.category).filter (fun c => ¬ (c = '<' ∨ c = '>')),
     sanitizeHTML validated.html,
     sanitizeCSS validated.css,
     sanitizeJS validated.js,
     (validated.tags.map (fun tg =>
        (trimList tg).filter (fun c => ¬ (c = '<' ∨ c = '>')))).filter
       (fun tg => tg ≠ [])⟩)

/-- The parsed output of `UpdateComponentSchema` (every field optional;
absent input keys stay absent). -/
structure UpdateData where
  name : Option (List Char)
  category : Option (List Char)
  html : Option (List Char)
  css : Option (List Char)
  js : Option (List Char)
  tags : Option (List (List Char))
deriving DecidableEq

/-- Does the payload carry at least one field?  (The refinement
`Object.keys(data).length > 0`.) -/
def hasAnyField (raw : RawComponent) : Bool :=
  raw.name.isSome || raw.category.isSome || raw.html.isSome ||
    raw.css.isSome || raw.js.isSome || raw.tags.isSome

/-- `UpdateComponentSchema.safeParse`: the per-field constraints of the
create schema, each field optional, plus the at-least-one-field
refinement. -/
def parseUpdate (raw : RawComponent) : Option UpdateData :=
  let nameOk :=
    match raw.name with
    | none => true
    | some n => decide (1 ≤ n.length ∧ n.length ≤ 100)
  let categoryOk :=
    match raw.category with
    | none => true
    | some c => decide (c.length ≤ 50)
  let htmlOk :=
    match raw.html with
    | none => true
    | some h => decide (h.length ≤ 50000)
  let cssOk :=
    match raw.css with
    | none => true
    | some c => decide (c.length ≤ 50000)
  let jsOk :=
    match raw.js with
    | none => true
    | some j => decide (j.length ≤ 50000)
  if nameOk && categoryOk && htmlOk && cssOk && jsOk && hasAnyField raw then
    some ⟨raw.name, raw.category, raw.html, raw.css, raw.js,
      raw.tags.map tagsTransform⟩
  else none

/-- `validateAndSanitizeUpdate` (returned `data`): present fields trimmed or
sanitized per field — with no angle-bracket stripping on this path. -/
def validateAndSanitizeUpdate (raw : RawComponent) : Option UpdateData :=
  (parseUpdate raw).map (fun validated =>
    ⟨validated.name.map trimList,
     validated.category.map trimList,
     validated.html.map sanitizeHTML,
     validated.css.map sanitizeCSS,
     validated.js.map sanitizeJS,
     validated.tags.map (fun tgs =>
       (tgs.map trimList).filter (fun t => t ≠ []))⟩)

/-! ### C8: the create/update schema contract -/

/-- C8: within the well-typed shape space, the create schema accepts exactly
payloads with a present non-empty name of at most 100 characters and
category/html/css/js within their size bounds when present (tags are
unconstrained); on success it applies the documented defaults and the tags
split/trim/filter transform.  The update schema applies the same per-field
constraints with every field optional and fails when no field at all is
present. -/
theorem C8_schema_contract (raw : RawComponent) :
    ((parseComponent raw).isSome ↔
      ((∃ n, raw.name = some n ∧ 1 ≤ n.length ∧ n.length ≤ 100)
        ∧ (∀ c, raw.category = some c → c.length ≤ 50)
        ∧ (∀ h, raw.html = some h → h.length ≤ 50000)
        ∧ (∀ c, raw.css = some c → c.length ≤ 50000)
        ∧ (∀ j, raw.js = some j → j.length ≤ 50000)))
    ∧ (∀ v, parseComponent raw = some v →
        (raw.name = some v.name
          ∧ (raw.category = none → v.category = "Other".toList)
          ∧ (raw.html = none → v.html = [])
          ∧ (raw.css = none → v.css = [])
          ∧ (raw.js = none → v.js = [])
          ∧ (raw.tags = none → v.tags = [])
          ∧ (∀ s, raw.tags = some (.inl s) →
              v.tags = ((splitOnChar ',' s).map trimList).filter
                (fun t => t ≠ []))
          ∧ (∀ l, raw.tags = some (.inr l) → v.tags = l)))
    ∧ ((parseUpdate raw).isSome ↔
        ((∀ n, raw.name = some n → 1 ≤ n.length ∧ n.length ≤ 100)
          ∧ (∀ c, raw.category = some c → c.length ≤ 50)
          ∧ (∀ h, raw.html = some h → h.length ≤ 50000)
          ∧ (∀ c, raw.css = some c → c.length ≤ 50000)
          ∧ (∀ j, raw.js = some j → j.length ≤ 50000)
          ∧ hasAnyField raw = true)) := by
  refine ⟨?_, ?_, ?_⟩
  · rcases hn : raw.name with _ | n
    · simp [parseComponent, hn]
    · simp only [parseComponent, hn]
      split_ifs with h1 h2 h3 h4 h5 h6
      · simp only [Option.isSome_none, Bool.false_eq_true, false_iff]
        rintro ⟨⟨n', hn', hlen, -⟩, -⟩
        cases hn'
        omega
      · simp only [Option.isSome_none, Bool.false_eq_true, false_iff]
        rintro ⟨⟨n', hn', -, hlen⟩, -⟩
        cases hn'
        omega
      · simp only [Option.isSome_none, Bool.false_eq_true, false_iff]
        rintro ⟨-, hcat, -⟩
        rcases hc : raw.category with _ | c
        · rw [hc] at h3; simp at h3
        · have := hcat c hc
          rw [hc] at h3
          simp at h3
          omega
      · simp only [Option.isSome_none, Bool.false_eq_true, false_iff]
        rintro ⟨-, -, hhtml, -⟩
        rcases hc : raw.html with _ | h
        · rw [hc] at h4; simp at h4
        · have := hhtml h hc
          rw [hc] at h4
          simp at h4
          omega
      · simp only [Option.isSome_none, Bool.false_eq_true, false_iff]
        rintro ⟨-, -, -, hcss, -⟩
        rcases hc : raw.css with _ | c
        · rw [hc] at h5; simp at h5
        · have := hcss c hc
          rw [hc] at h5
          simp at h5
          omega
      · simp only [Option.isSome_none, Bool.false_eq_true, false_iff]
        rintro ⟨-, -, -, -, hjs⟩
        rcases hc : raw.js with _ | j
        · rw [hc] at h6; simp at h6
        · have := hjs j hc
          rw [hc] at h6
          simp at h6
          omega
      · simp only [Option.isSome_some, true_iff]
        refine ⟨⟨n, rfl, by omega, by omega⟩, ?_, ?_, ?_, ?_⟩
        · intro c hc; rw [hc] at h3; simpa using h3
        · intro h hc; rw [hc] at h4; simpa using h4
        · intro c hc; rw [hc] at h5; simpa using h5
        · intro j hc; rw [hc] at h6; simpa using h6
  · intro v hv
    rcases hn : raw.name with _ | n
    · rw [parseComponent, hn] at hv; cases hv
    · rw [parseComponent, hn] at hv
      dsimp only at hv
      split_ifs at hv
      obtain rfl : v = ⟨n, raw.category.getD ("Other".toList),
          raw.html.getD [], raw.css.getD [], raw.js.getD [],
          (raw.tags.map tagsTransform).getD []⟩ := by
        cases hv; rfl
      refine ⟨rfl, ?_, ?_, ?_, ?_, ?_, ?_, ?_⟩
      · intro hc; rw [hc]; rfl
      · intro hc; rw [hc]; rfl
      · intro hc; rw [hc]; rfl
      · intro hc; rw [hc]; rfl
      · intro hc; rw [hc]; rfl
      · intro s hs; rw [hs]; rfl
      · intro l hl; rw [hl]; rfl
  · have hred : (parseUpdate raw).isSome
        = ((match raw.name with
            | none => true
            | some n => decide (1 ≤ n.length ∧ n.length ≤ 100)) &&
           (match raw.category with
            | none => true
            | some c => decide (c.length ≤ 50)) &&
           (match raw.html with
            | none => true
            | some h => decide (h.length ≤ 50000)) &&
           (match raw.css with
            | none => true
            | some c => decide (c.length ≤ 50000)) &&
           (match raw.js with
            | none => true
            | some j => decide (j.length ≤ 50000)) &&
           hasAnyField raw) := by
      unfold parseUpdate
      dsimp only
      split
      · simp only [Option.isSome_some]
        exact (by assumption : _ = true).symm
      · simp only [Option.isSome_none]
        exact (Bool.not_eq_true _ ▸ (by assumption : ¬ _ = true)
          |> fun h => (Bool.eq_false_iff.mpr (by assumption)).symm)
    rw [hred]
    simp only [Bool.and_eq_true]
    constructor
    · rintro ⟨⟨⟨⟨⟨hname, hcat⟩, hhtml⟩, hcss⟩, hjs⟩, hany⟩
      refine ⟨?_, ?_, ?_, ?_, ?_, hany⟩
      · intro n hn; rw [hn] at hname; simpa using hname
      · intro c hc; rw [hc] at hcat; simpa using hcat
      · intro h hc; rw [hc] at hhtml; simpa using hhtml
      · intro c hc; rw [hc] at hcss; simpa using hcss
      · intro j hc; rw [hc] at hjs; simpa using hjs
    · rintro ⟨hname, hcat, hhtml, hcss, hjs, hany⟩
      refine ⟨⟨⟨⟨⟨?_, ?_⟩, ?_⟩, ?_⟩, ?_⟩, hany⟩
      · rcases hn : raw.name with _ | n
        · rfl
        · simpa using hname n hn
      · rcases hc : raw.category with _ | c
        · rfl
        · simpa using hcat c hc
      · rcases hc : raw.html with _ | h
        · rfl
        · simpa using hhtml h hc
      · rcases hc : raw.css with _ | c
        · rfl
        · simpa using hcss c hc
      · rcases hc : raw.js with _ | j
        · rfl
        · simpa using hjs j hc

/-- Witness for C8: a name-only create payload parses; the empty update
payload is rejected. -/
theorem C8_schema_contract_witness :
    (parseComponent ⟨some ("Btn".toList), none, none, none, none, none⟩).isSome
      = true
    ∧ (parseUpdate ⟨none, none, none, none, none, none⟩).isSome = false := by
  constructor
  · refine (C8_schema_contract _).1.mpr
      ⟨⟨"Btn".toList, rfl, by decide, by decide⟩, ?_, ?_, ?_, ?_⟩
    · intro c hc; cases hc
    · intro h hc; cases hc
    · intro c hc; cases hc
    · intro j hc; cases hc
  · cases hs : (parseUpdate ⟨none, none, none, none, none, none⟩).isSome
    · rfl
    · have h := (C8_schema_contract
        ⟨none, none, none, none, none, none⟩).2.2.mp hs
      exact absurd h.2.2.2.2.2 (by decide)

/-! ### C10: metadata fields after create-path sanitization -/

/-- C10 (amended): every payload accepted by the create-path validator comes
back with a name, category and tags free of angle brackets (they are stripped
after trimming), and every returned tag non-empty.  (The fields are not
always trimmed: stripping brackets can expose interior whitespace at the
ends; see the counterexample.) -/
theorem C10_metadata_no_angle_brackets (raw : RawComponent)
    (d : ComponentData) (h : validateAndSanitizeComponent raw = some d) :
    (∀ c ∈ d.name, c ≠ '<' ∧ c ≠ '>')
    ∧ (∀ c ∈ d.category, c ≠ '<' ∧ c ≠ '>')
    ∧ (∀ t ∈ d.tags, t ≠ [] ∧ ∀ c ∈ t, c ≠ '<' ∧ c ≠ '>') := by
  unfold validateAndSanitizeComponent at h
  rcases hp : parseComponent raw with _ | v
  · rw [hp] at h; cases h
  · rw [hp] at h
    rw [Option.map_some'] at h
    obtain rfl : _ = d := Option.some.inj h
    refine ⟨?_, ?_, ?_⟩
    · intro c hc
      have := List.of_mem_filter hc
      simpa [not_or] using this
    · intro c hc
      have := List.of_mem_filter hc
      simpa [not_or] using this
    · intro t ht
      have hne := List.of_mem_filter ht
      have hmem := List.mem_of_mem_filter ht
      refine ⟨by simpa using hne, ?_⟩
      obtain ⟨tg, -, rfl⟩ := List.mem_map.mp hmem
      intro c hc
      have := List.of_mem_filter hc
      simpa [not_or] using this

/-- The create payload whose name is "< a". -/
def rawAngleName : RawComponent :=
  ⟨some ("< a".toList), none, none, none, none, none⟩

/-- Counterexample to C10 as frozen: the accepted name "< a" comes back as
" a" — the angle bracket is stripped after trimming, leaving a leading
space, so the returned name is not trimmed. -/
theorem C10_cex_name_not_trimmed :
    validateAndSanitizeComponent rawAngleName
      = some ⟨" a".toList, "Other".toList, [], [], [], []⟩
    ∧ trimList (" a".toList) ≠ (" a".toList) := by
  exact ⟨by decide, by decide⟩

/-- Witness for C10 at a concrete accepted payload. -/
theorem C10_metadata_no_angle_brackets_witness :
    validateAndSanitizeComponent
        ⟨some ("Btn".toList), none, none, none, none, none⟩
      = some ⟨"Btn".toList, "Other".toList, [], [], [], []⟩
    ∧ ('B' ≠ '<' ∧ 'B' ≠ '>') := by
  have h := C10_metadata_no_angle_brackets
    ⟨some ("Btn".toList), none, none, none, none, none⟩
    ⟨"Btn".toList, "Other".toList, [], [], [], []⟩ (by decide)
  exact ⟨by decide, h.1 'B' (by decide)⟩

/-! ### C5: the sanitizer neutralizes the known XSS vectors -/

set_option maxRecDepth 200000

/-- C5: sanitizing `<img src=x onerror="alert(1)">` yields an output with no
`onerror` and no `alert(1)` substring (the computed output is `<img src=x >`),
and the create payload with html `<script>x</script><div>Btn</div>` passes
validation with returned html `<div>Btn</div>`, which contains no `<script`
substring. -/
theorem C5_sanitizer_known_payloads :
    containsSub (sanitizeHTML ("<img src=x onerror=\"alert(1)\">".toList))
        ("onerror".toList) = false
    ∧ containsSub (sanitizeHTML ("<img src=x onerror=\"alert(1)\">".toList))
        ("alert(1)".toList) = false
    ∧ validateAndSanitizeComponent
        ⟨some ("Btn".toList), some ("UI".toList),
         some ("<script>x</script><div>Btn</div>".toList), some [], some [],
         some (.inr ["ui".toList])⟩
      = some ⟨"Btn".toList, "UI".toList, "<div>Btn</div>".toList, [], [],
          ["ui".toList]⟩
    ∧ containsSub ("<div>Btn</div>".toList) ("<script".toList) = false := by
  refine ⟨by decide, by decide, by decide, by decide⟩
